import Mathlib

/-!
Verification of the tiktoktech geo-compliance classification pipeline.

Shallow embedding of the core pipeline stages (prescan, LLM-enrichment
merge, router, finalizer, rate limiter) from `src/`.  Python floats are
modelled as rationals, Python lists as Lean lists, Python `None` as
`Option.none`.  Regex pattern matching (delegated by the source to the
Python `re` library) is abstracted as match-count functions on the
scanned text.
-/

/-! ## String ordering

Python sorts strings lexicographically by Unicode code point.  We use a
structural Bool comparator on the character lists so that sorting is
kernel-computable. -/


/-- Lexicographic comparison of character lists by code point. -/
def chLe : List Char → List Char → Bool
  | [], _ => true
  | _ :: _, [] => false
  | a :: as, b :: bs =>
    if a.toNat < b.toNat then true
    else if b.toNat < a.toNat then false
    else chLe as bs

/-- `a <= b` on strings, lexicographic by code point (Python string order). -/
def strLe (a b : String) : Bool := chLe a.data b.data

/-- Insert a string into a list, keeping `strLe`-sorted order. -/
def insertLe (x : String) : List String → List String
  | [] => [x]
  | y :: ys => if strLe x y then x :: y :: ys else y :: insertLe x ys

/-- Insertion sort by `strLe` (Python `sorted` on strings). -/
def sortStrs : List String → List String
  | [] => []
  | x :: xs => insertLe x (sortStrs xs)

/-! ## `src/utils/merge.py` -/


/-- `_merge_unique(a, b)` = `sorted({*(a or []), *(b or [])})`:
sorted deduplicated set union of two string lists. -/
def mergeUnique (a b : List String) : List String :=
  sortStrs (a ++ b).dedup

/-- Round a rational to 2 decimal places (Python `round(x, 2)`; Python
uses float banker's rounding, we use half-up on rationals — all values
reached in the claims are exact at 2 decimals so the mode never bites). -/
def round2 (q : ℚ) : ℚ := (Int.floor (q * 100 + 1/2) : ℚ) / 100

/-- The prescan-produced columns of one enrichment input row, as read by
`merge_prescan_llm` (after its `_to_list` / `_coerce_float` coercions,
i.e. with list- and float-typed values). -/
structure PrescanRow where
  prescan_required_hint : Bool
  prescan_domains : List String
  prescan_primary_regions : List String
  prescan_law_hits : List String
  prescan_confidence_boost : ℚ
  deriving Repr, DecidableEq

/-- An LLM response object for one row, as read by `merge_prescan_llm`
(`classification` may be absent = `None`; `confidence` already coerced
to float, lists already coerced by `_to_list`). -/
structure LlmObj where
  classification : Option String
  confidence : ℚ
  domains : List String
  primary_regions : List String
  related_regulations : List String
  deriving Repr, DecidableEq

/-- Result record of `merge_prescan_llm`. -/
structure MergeResult where
  llm_classification : Option String
  llm_confidence : ℚ
  llm_domains : List String
  llm_primary_regions : List String
  llm_related_regulations : List String
  final_domains : List String
  final_primary_regions : List String
  final_related_regulations : List String
  final_confidence : ℚ
  final_classification : String
  deriving Repr, DecidableEq

/-- Python `x or d` for an optional string: `None` and `""` are falsy. -/
def pyOrStr (o : Option String) (d : String) : String :=
  match o with
  | none => d
  | some s => if s = "" then d else s

/-- `merge_prescan_llm(row, llm_obj, downgrade_guard)` from
`src/utils/merge.py` lines 24-57.  `llm_obj` is `None` or a response
object; `(llm_obj or {}).get(...)` yields `None`/defaults when absent. -/
def merge_prescan_llm (row : PrescanRow) (llm_obj : Option LlmObj)
    (downgrade_guard : ℚ) : MergeResult :=
  let pre_required := row.prescan_required_hint
  let pre_domains := row.prescan_domains
  let pre_regions := row.prescan_primary_regions
  let pre_laws := row.prescan_law_hits
  let pre_boost := row.prescan_confidence_boost
  let llm_class : Option String :=
    match llm_obj with | none => none | some o => o.classification
  let llm_conf : ℚ :=
    match llm_obj with | none => 0 | some o => o.confidence
  let llm_domains : List String :=
    match llm_obj with | none => [] | some o => o.domains
  let llm_regions : List String :=
    match llm_obj with | none => [] | some o => o.primary_regions
  let llm_regs : List String :=
    match llm_obj with | none => [] | some o => o.related_regulations
  let final_domains := mergeUnique pre_domains llm_domains
  let final_regions := mergeUnique pre_regions llm_regions
  let final_regs := mergeUnique pre_laws llm_regs
  let final_conf := round2 (min (llm_conf + pre_boost) (99/100))
  let final_class0 := pyOrStr llm_class
    (if final_domains.isEmpty then "NEEDS HUMAN REVIEW" else "REQUIRED")
  let final_class :=
    if pre_required ∧ llm_class = some "NOT REQUIRED" ∧ llm_conf < downgrade_guard
    then "REQUIRES REVIEW (rules hint REQUIRED)"
    else final_class0
  { llm_classification := llm_class
    llm_confidence := llm_conf
    llm_domains := llm_domains
    llm_primary_regions := llm_regions
    llm_related_regulations := llm_regs
    final_domains := final_domains
    final_primary_regions := final_regions
    final_related_regulations := final_regs
    final_confidence := final_conf
    final_classification := final_class }

/-- `Settings` from `src/config/settings.py`: the configured
downgrade-guard threshold defaults to `0.80`. -/
structure Settings where
  confidence_downgrade_guard : ℚ := 80/100
  deriving Repr, DecidableEq

/-! ## `src/pipelines/finalize_results.py` (finalizer helpers) -/


/-- One row of `agent_results.csv` as seen by the finalizer helpers:
agent name, status string, optional score (pandas `dropna` removes
missing scores), free-text reasoning. -/
structure AgentRow where
  agent : String
  status : String
  score : Option ℚ
  reasoning : String
  deriving Repr, DecidableEq

/-- `pick_final_class(agent_rows)` from `finalize_results.py` lines
71-76: any ISSUE → REQUIRED; else any REVIEW → NEEDS HUMAN REVIEW;
else NOT REQUIRED. -/
def pick_final_class (rows : List AgentRow) : String :=
  if rows.any (fun r => r.status == "ISSUE") then "REQUIRED"
  else if rows.any (fun r => r.status == "REVIEW") then "NEEDS HUMAN REVIEW"
  else "NOT REQUIRED"

/-- Recorded scores of the ISSUE-status rows
(`agent_rows.loc[status == "ISSUE", "score"].dropna()`). -/
def issueScores (rows : List AgentRow) : List ℚ :=
  (rows.filter (fun r => r.status == "ISSUE")).filterMap (fun r => r.score)

/-- Recorded scores of the REVIEW-status rows. -/
def reviewScores (rows : List AgentRow) : List ℚ :=
  (rows.filter (fun r => r.status == "REVIEW")).filterMap (fun r => r.score)

/-- `compute_confidence(agent_rows, final_class)` from
`finalize_results.py` lines 78-93.  Note the empty-frame early return
of `0.5` on line 80-81. -/
def compute_confidence (rows : List AgentRow) (final_class : String) : ℚ :=
  if rows.isEmpty then 1/2
  else if final_class = "REQUIRED" then
    match issueScores rows with
    | [] => 3/4
    | s :: rest => rest.foldl max s
  else if final_class = "NEEDS HUMAN REVIEW" then
    let scores := reviewScores rows
    if scores.isEmpty then 3/5
    else scores.sum / scores.length
  else 9/10

/-! ## `src/processors/prescan.py`

The Python source delegates regex matching to the `re` library; the
prescan logic consumes only match counts (`finditer`) and search
truthiness (`search`).  We therefore model a compiled pattern as its
match-count function `String → Nat` and take the pattern catalogs of
`src/processors/rules_config.py` as parameters. -/


/-- An abstract compiled regex pattern: the number of non-overlapping
matches `p.finditer(text)` yields on `text`.  `p.search(text)` is truthy
iff this count is positive. -/
def Pat : Type := String → Nat

/-- The pattern catalogs of `rules_config.py` plus the two regexes
inlined in the body of `prescan` (minors-term and age-control-term). -/
structure RulesConfig where
  lawPatterns : List (String × List Pat)
  lawToRegions : String → List String
  domainPatterns : List (String × List Pat)
  complianceLanguage : List Pat
  lawToDomains : String → List String
  minorPat : String → Bool
  ageCtrlPat : String → Bool

/-- Python `" ".join(text.split())`: collapse all whitespace runs. -/
def normalizeWs (s : String) : String :=
  " ".intercalate ((s.split (fun c => c.isWhitespace)).filter (fun t => t ≠ ""))

/-- The scanned text of `prescan`: name and description joined and
whitespace-normalized. -/
def prescanText (feature_name feature_description : String) : String :=
  normalizeWs (feature_name ++ "\n" ++ feature_description)

/-- `_collect_law_hits`: per-law total match counts, keeping only laws
with at least one match (Python `if total: counts[law] = total`). -/
def collect_law_hits (cfg : RulesConfig) (text : String) : List (String × Nat) :=
  cfg.lawPatterns.filterMap (fun lp =>
    let total := (lp.2.map (fun p => p text)).sum
    if total = 0 then none else some (lp.1, total))

/-- `_collect_domain_hits` (count part): per-domain total match counts,
keeping only domains with at least one match. -/
def collect_domain_counts (cfg : RulesConfig) (text : String) : List (String × Nat) :=
  cfg.domainPatterns.filterMap (fun dp =>
    let total := (dp.2.map (fun p => p text)).sum
    if total = 0 then none else some (dp.1, total))

/-- `_has_compliance_language`: `any(p.search(text) for p in ...)`. -/
def has_compliance_language (cfg : RulesConfig) (text : String) : Bool :=
  cfg.complianceLanguage.any (fun p => 0 < p text)

/-- Ordered-dict lookup. -/
def alGet (l : List (String × Nat)) (k : String) : Option Nat :=
  (l.find? (fun kv => kv.1 == k)).map (fun kv => kv.2)

/-- Ordered-dict update: overwrite in place, or append (Python dict
insertion-order semantics). -/
def alSet : List (String × Nat) → String → Nat → List (String × Nat)
  | [], k, v => [(k, v)]
  | kv :: rest, k, v =>
    if kv.1 == k then (k, v) :: rest else kv :: alSet rest k v

/-- Stable insertion (descending by count): models Python's stable
`sorted(keys, key=lambda d: -count[d])`. -/
def insByCountDesc (x : String × Nat) : List (String × Nat) → List (String × Nat)
  | [] => [x]
  | y :: ys => if y.2 ≤ x.2 then x :: y :: ys else y :: insByCountDesc x ys

/-- Stable sort, descending by count. -/
def sortByCountDesc : List (String × Nat) → List (String × Nat)
  | [] => []
  | x :: xs => insByCountDesc x (sortByCountDesc xs)

/-- Output record of `prescan` (the snippet capture and the rationale
string are presentation-only and carried by no claim, so they are not
modelled). -/
structure PrescanOut where
  required_hint : Bool
  domains : List String
  primary_regions : List String
  law_hits : List String
  confidence_boost : ℚ

/-- `prescan(feature_name, feature_description)` from
`src/processors/prescan.py` lines 57-115. -/
def prescan (cfg : RulesConfig) (feature_name feature_description : String) :
    PrescanOut :=
  let text := prescanText feature_name feature_description
  let law_counts := collect_law_hits cfg text
  let region_hits := (law_counts.map Prod.fst).flatMap cfg.lawToRegions
  let compliance := has_compliance_language cfg text
  let domain_counts0 := collect_domain_counts cfg text
  let domain_counts1 := (law_counts.map Prod.fst).foldl (fun acc law =>
      (cfg.lawToDomains law).foldl (fun acc2 dom =>
        alSet acc2 dom (max ((alGet acc2 dom).getD 0) 1)) acc) domain_counts0
  let minor := cfg.minorPat text
  let age_ctrl := cfg.ageCtrlPat text
  let domain_counts := if minor && age_ctrl then
      alSet domain_counts1 "Child Safety"
        (max ((alGet domain_counts1 "Child Safety").getD 0) 2)
    else domain_counts1
  let required_hint := (!law_counts.isEmpty) || compliance || (minor && age_ctrl)
  let domains := (sortByCountDesc domain_counts).map Prod.fst
  let primary_regions := sortStrs region_hits.dedup
  let law_hits := sortStrs (law_counts.map Prod.fst)
  let boost0 : ℚ := (if !law_counts.isEmpty then 1/5 else 0)
      + (if compliance then 1/20 else 0)
      + (if minor && age_ctrl then 1/10 else 0)
  let boost := min boost0 (3/10)
  ⟨required_hint, domains, primary_regions, law_hits, boost⟩

/-! ## `src/pipelines/router.py` -/


/-- `RouterConfig` from `router.py` lines 10-23, with its defaults. -/
structure RouterConfig where
  category_only : Bool := true
  only_llm : Bool := false
  min_confidence : ℚ := 3/4
  max_agents_per_item : Nat := 3
  require_review_labels : List String :=
    ["NEEDS HUMAN REVIEW", "REQUIRES REVIEW (rules hint REQUIRED)"]
  human_review_agent : String := "HumanReviewAgent"
  default_agent : String := "GeneralComplianceAgent"

/-- `DOMAIN_TO_AGENT` lookup (`.get`-style, `None` when absent). -/
def DOMAIN_TO_AGENT (d : String) : Option String :=
  if d = "Child Safety" then some "ChildSafetyAgent"
  else if d = "Privacy & Data Protection" then some "PrivacyAgent"
  else if d = "Content Moderation / Illegal Content" then some "ModerationAgent"
  else if d = "General Compliance" then some "GeneralComplianceAgent"
  else none

/-- `REGION_AGENT_OVERRIDES` lookup. -/
def REGION_AGENT_OVERRIDES (r : String) : Option String :=
  if r = "US-CA" then some "CaliforniaPrivacyAgent"
  else if r = "US-FL" then some "FloridaMinorsAgent"
  else if r = "EU" then some "EUComplianceAgent"
  else if r = "SG" then some "SingaporePDPAAgent"
  else none

/-- The enriched-CSV columns `route_row` reads (after its `_to_list` /
float coercions). -/
structure RouteRow where
  final_classification : Option String
  final_confidence : ℚ
  final_domains : List String
  final_primary_regions : List String
  prescan_required_hint : Bool
  manual_agents : List String
  skip_agents : List String
  llm_domains : List String
  prescan_confidence_boost : ℚ

/-- Routing decision (the `policy` snapshot dict is an echo of the
inputs and is carried by no claim, so it is not modelled). -/
structure RouteDecision where
  agents : List String
  reason : String
  deriving Repr, DecidableEq

/-- `_unique_keep_order`: deduplicate preserving first-seen order. -/
def uniqueKeepOrder : List String → List String
  | [] => []
  | x :: xs =>
    x :: uniqueKeepOrder (xs.filter (fun y => decide (y ≠ x)))
termination_by l => l.length
decreasing_by
  simp only [List.length_cons]
  exact Nat.lt_succ_of_le (List.length_filter_le _ _)

/-- `route_row(row, cfg=...)` from `router.py` lines 80-196. -/
def route_row (cfg : RouterConfig) (row : RouteRow) : RouteDecision :=
  if cfg.only_llm = true ∧ row.llm_domains = [] ∧ row.prescan_confidence_boost ≠ 0 then
    ⟨[], "skip: no llm_domains and prescan_boost>0"⟩
  else
    let classification := (pyOrStr row.final_classification "").trim
    let domains := row.final_domains
    let regions := row.final_primary_regions
    let manual := row.manual_agents
    let skip := row.skip_agents
    if manual ≠ [] then
      let agents := (manual.filter (fun a => !skip.contains a)).take cfg.max_agents_per_item
      ⟨if agents = [] then [cfg.human_review_agent] else agents, "manual override"⟩
    else if cfg.category_only then
      let mapped := domains.filterMap DOMAIN_TO_AGENT
                    ++ regions.filterMap REGION_AGENT_OVERRIDES
      if mapped = [] then
        ⟨[cfg.default_agent], "no domain; default agent"⟩
      else
        let m2 := (uniqueKeepOrder (mapped.filter (fun a => !skip.contains a))).take
                    cfg.max_agents_per_item
        ⟨if m2 = [] then [cfg.default_agent] else m2, "category-only routing"⟩
    else
      if cfg.require_review_labels.contains classification then
        ⟨[cfg.human_review_agent], "classification=" ++ classification⟩
      else if row.final_confidence < cfg.min_confidence then
        ⟨[cfg.human_review_agent], "low confidence"⟩
      else
        let mapped := domains.filterMap DOMAIN_TO_AGENT
                      ++ regions.filterMap REGION_AGENT_OVERRIDES
        if mapped = [] ∧ row.prescan_required_hint = true then
          ⟨[cfg.human_review_agent], "prescan hinted requirement but no domain"⟩
        else if mapped = [] then
          ⟨[cfg.default_agent], "no domain/region override"⟩
        else
          let m2 := (uniqueKeepOrder (mapped.filter (fun a => !skip.contains a))).take
                      cfg.max_agents_per_item
          ⟨if m2 = [] then [cfg.default_agent] else m2, "domain/region routing"⟩

/-! ## `src/pipelines/agent_runner.py` — `RateLimitedLLM`

The lock-protected section of `generate` is modelled as a pure timing
step on an explicit monotonic clock: the mutex serializes the critical
sections, `time.sleep(d)` advances the clock by `d`, and the underlying
delegate call happens no earlier than the section's exit time. -/


/-- Rate-limiter state: `min_interval`, `jitter`, and the shared
`_last` timestamp (`agent_runner.py` lines 56-62). -/
structure RateLimitedLLM where
  min_interval : ℚ
  jitter : ℚ
  last : ℚ

/-- One execution of the lock-protected section of
`RateLimitedLLM.generate` (lines 64-75) entered at clock time `now`:
computes `wait = (last + min_interval) - now`, sleeps `wait` when
positive, then sleeps `min(jitter, 0.250)` when `jitter > 0`, then
updates `_last` to the current clock.  Returns the exit time (the
earliest clock time the delegated call can start) and the new state. -/
def RateLimitedLLM.generateStep (st : RateLimitedLLM) (now : ℚ) :
    ℚ × RateLimitedLLM :=
  let wait := (st.last + st.min_interval) - now
  let t1 := if wait > 0 then now + wait else now
  let t2 := if st.jitter > 0 then t1 + min st.jitter (1/4) else t1
  (t2, { st with last := t2 })

/-! ## `src/utils/json_parser.py` — `strict_json_array`

`json.loads` is modelled by a fuel-based recursive-descent JSON parser.
Unmodelled corners of the Python parser (each noted where relevant):
`\uXXXX` escapes, `\f`/`\v` whitespace, rejection of leading zeros, and
last-wins duplicate object keys. -/


/-- JSON values as returned by `json.loads`.  `num` carries `isInt` to
distinguish Python `int` (`"1"`) from `float` (`"1.0"`). -/
inductive Json where
  | null : Json
  | bool (b : Bool) : Json
  | num (isInt : Bool) (q : ℚ) : Json
  | str (s : String) : Json
  | arr (xs : List Json) : Json
  | obj (kvs : List (String × Json)) : Json

/-- `true` iff the value is a JSON array (a Python `list`). -/
def Json.isArr : Json → Bool
  | Json.arr _ => true
  | _ => false

/-- The left-brace character. -/
def lbraceC : Char := Char.ofNat 123

/-- The right-brace character. -/
def rbraceC : Char := Char.ofNat 125

/-- The double-quote character. -/
def quoteC : Char := Char.ofNat 34

/-- The backslash character. -/
def backslashC : Char := Char.ofNat 92

/-- JSON/Python whitespace (space, newline, tab, carriage return). -/
def isWsChar (c : Char) : Bool :=
  c == ' ' || c == Char.ofNat 10 || c == Char.ofNat 9 || c == Char.ofNat 13

/-- Drop leading whitespace. -/
def skipWs (cs : List Char) : List Char := cs.dropWhile isWsChar

/-- Python `str.strip()`: drop leading and trailing whitespace. -/
def stripWs (cs : List Char) : List Char :=
  ((skipWs cs).reverse.dropWhile isWsChar).reverse

/-- First index at or after which `sub` occurs in `cs` (Python
`s.find(sub)`; `none` for `-1`). -/
def findSubAux : List Char → List Char → Nat → Option Nat
  | cs, sub, idx =>
    if sub.isPrefixOf cs then some idx
    else
      match cs with
      | [] => none
      | _ :: t => findSubAux t sub (idx + 1)

/-- `s.find(sub)` as an `Option`. -/
def findSub (cs sub : List Char) : Option Nat := findSubAux cs sub 0

/-- Index of the last occurrence of character `c` (Python `s.rfind`). -/
def rfindIdx (cs : List Char) (c : Char) : Option Nat :=
  (List.range cs.length).foldl
    (fun acc i => if cs.getD i c = c ∧ cs.get? i = some c then some i else acc) none

/-- Python slice `s[i:j]` where `j` may be negative (counted from the
end) and is clamped to the string length. -/
def pySlice (cs : List Char) (i : Nat) (j : Int) : List Char :=
  let jj : Int := if j < 0 then (cs.length : Int) + j else j
  let jjn : Nat := if jj < 0 then 0 else jj.toNat
  (cs.take jjn).drop i

/-- Value of a digit run. -/
def digitsVal (ds : List Char) : Nat :=
  ds.foldl (fun a c => a * 10 + (c.toNat - 48)) 0

/-- One-character JSON escape (`\uXXXX` escapes are not modelled and
fail the parse). -/
def unescapeChar (c : Char) : Option Char :=
  if c = quoteC then some quoteC
  else if c = backslashC then some backslashC
  else if c = '/' then some '/'
  else if c = 'n' then some (Char.ofNat 10)
  else if c = 't' then some (Char.ofNat 9)
  else if c = 'r' then some (Char.ofNat 13)
  else if c = 'b' then some (Char.ofNat 8)
  else if c = 'f' then some (Char.ofNat 12)
  else none

/-- Body of a JSON string after the opening quote. -/
def parseStringBody : Nat → List Char → Option (String × List Char)
  | 0, _ => none
  | fuel + 1, cs =>
    match cs with
    | [] => none
    | c :: rest =>
      if c = quoteC then some ("", rest)
      else if c = backslashC then
        match rest with
        | [] => none
        | e :: rest2 =>
          match unescapeChar e with
          | none => none
          | some ch =>
            (parseStringBody fuel rest2).map
              (fun p => (String.mk (ch :: p.1.data), p.2))
      else
        (parseStringBody fuel rest).map
          (fun p => (String.mk (c :: p.1.data), p.2))

/-- A JSON number (optional sign, digits, optional fraction, optional
exponent); `isInt` is true exactly when neither fraction nor exponent
is present, matching `json.loads` returning `int` vs `float`. -/
def parseNumber (cs : List Char) : Option (Json × List Char) :=
  let signed : Bool × List Char :=
    match cs with
    | c :: rest => if c = '-' then (true, rest) else (false, cs)
    | [] => (false, cs)
  let neg := signed.1
  let body := signed.2
  let ip := body.span (fun c => c.isDigit)
  if ip.1 = [] then none
  else
    let intVal : ℚ := (digitsVal ip.1 : ℚ)
    let afterFrac : Option (Bool × ℚ × List Char) :=
      match ip.2 with
      | c :: rest =>
        if c = '.' then
          let fp := rest.span (fun c => c.isDigit)
          if fp.1 = [] then none
          else some (false, intVal + (digitsVal fp.1 : ℚ) / (10 ^ fp.1.length : ℚ), fp.2)
        else some (true, intVal, ip.2)
      | [] => some (true, intVal, ip.2)
    match afterFrac with
    | none => none
    | some (isInt1, v1, cs1) =>
      let afterExp : Option (Bool × ℚ × List Char) :=
        match cs1 with
        | c :: rest =>
          if c = 'e' ∨ c = 'E' then
            let esigned : Bool × List Char :=
              match rest with
              | c2 :: rest2 =>
                if c2 = '-' then (true, rest2)
                else if c2 = '+' then (false, rest2)
                else (false, rest)
              | [] => (false, rest)
            let ep := esigned.2.span (fun c => c.isDigit)
            if ep.1 = [] then none
            else
              let e := digitsVal ep.1
              some (false,
                if esigned.1 then v1 / (10 ^ e : ℚ) else v1 * (10 ^ e : ℚ),
                ep.2)
          else some (isInt1, v1, cs1)
        | [] => some (isInt1, v1, cs1)
      match afterExp with
      | none => none
      | some (isInt2, v2, cs2) =>
        some (Json.num isInt2 (if neg then -v2 else v2), cs2)

mutual

/-- Parse one JSON value (fuel-bounded recursive descent). -/
def parseVal : Nat → List Char → Option (Json × List Char)
  | 0, _ => none
  | fuel + 1, cs0 =>
    match skipWs cs0 with
    | [] => none
    | c :: rest =>
      if c = lbraceC then
        match skipWs rest with
        | c2 :: rest2 =>
          if c2 = rbraceC then some (Json.obj [], rest2)
          else (parseObjItems fuel rest []).map (fun p => (Json.obj p.1, p.2))
        | [] => none
      else if c = '[' then
        match skipWs rest with
        | c2 :: rest2 =>
          if c2 = ']' then some (Json.arr [], rest2)
          else (parseArrItems fuel rest []).map (fun p => (Json.arr p.1, p.2))
        | [] => none
      else if c = quoteC then
        (parseStringBody (rest.length + 1) rest).map
          (fun p => (Json.str p.1, p.2))
      else if c = 't' then
        if "rue".data.isPrefixOf rest then some (Json.bool true, rest.drop 3)
        else none
      else if c = 'f' then
        if "alse".data.isPrefixOf rest then some (Json.bool false, rest.drop 4)
        else none
      else if c = 'n' then
        if "ull".data.isPrefixOf rest then some (Json.null, rest.drop 3)
        else none
      else if c = '-' ∨ c.isDigit then parseNumber (c :: rest)
      else none

/-- Items of a JSON array after the opening bracket (non-empty case). -/
def parseArrItems : Nat → List Char → List Json → Option (List Json × List Char)
  | 0, _, _ => none
  | fuel + 1, cs, acc =>
    match parseVal fuel cs with
    | none => none
    | some (v, rest) =>
      match skipWs rest with
      | c :: rest2 =>
        if c = ',' then parseArrItems fuel rest2 (acc ++ [v])
        else if c = ']' then some (acc ++ [v], rest2)
        else none
      | [] => none

/-- Members of a JSON object after the opening brace (non-empty case). -/
def parseObjItems : Nat → List Char → List (String × Json) →
    Option (List (String × Json) × List Char)
  | 0, _, _ => none
  | fuel + 1, cs, acc =>
    match skipWs cs with
    | c :: rest =>
      if c = quoteC then
        match parseStringBody (rest.length + 1) rest with
        | none => none
        | some (k, rest2) =>
          match skipWs rest2 with
          | c2 :: rest3 =>
            if c2 = ':' then
              match parseVal fuel rest3 with
              | none => none
              | some (v, rest4) =>
                match skipWs rest4 with
                | c3 :: rest5 =>
                  if c3 = ',' then parseObjItems fuel rest5 (acc ++ [(k, v)])
                  else if c3 = rbraceC then some (acc ++ [(k, v)], rest5)
                  else none
                | [] => none
            else none
          | [] => none
      else none
    | [] => none

end

/-- `json.loads(s)`: parse one JSON value and require the rest of the
input to be whitespace. -/
def jsonParse (cs : List Char) : Option Json :=
  match parseVal (cs.length + 2) cs with
  | some (v, rest) => if skipWs rest = [] then some v else none
  | none => none

/-- `strict_json_array(text)` from `src/utils/json_parser.py` lines
4-12: strip, cut out a \x60\x60\x60json fence if present (else slice
from the first `[` to the last `]` if both occur), then `json.loads`.
`none` models the `json.loads` exception; note that a successful parse
is returned whatever its type — the function never checks that the
result is an array. -/
def strict_json_array (text : String) : Option Json :=
  let s := stripWs text.data
  match findSub s ("```json".data) with
  | some k =>
    let i := k + 7
    let j : Int :=
      match findSub (s.drop i) ("```".data) with
      | some j' => (i : Int) + (j' : Int)
      | none => -1
    jsonParse (stripWs (pySlice s i j))
  | none =>
    if s.contains '[' && s.contains ']' then
      match findSub s ['['], rfindIdx s ']' with
      | some i, some j => jsonParse (pySlice s i ((j : Int) + 1))
      | _, _ => jsonParse s
    else jsonParse s

/-! ## `src/pipelines/llm_enrichment.py` -/


/-- `obj.get(k)` on a parsed JSON object. -/
def jGet (kvs : List (String × Json)) (k : String) : Option Json :=
  (kvs.find? (fun kv => kv.1 == k)).map (fun kv => kv.2)

/-- Python `isinstance(v, int)` view of a JSON value, with its `int`
content (Python `bool` is a subtype of `int`: `True`/`False` count as
`1`/`0`).  `none` for non-integers. -/
def pyIntOf : Json → Option Int
  | Json.num true q => some q.num
  | Json.bool b => some (if b then 1 else 0)
  | _ => none

/-- Python dict assignment `d[k] = v`: overwrite in place, or append. -/
def dictInsertReplace (m : List (Int × Json)) (k : Int) (v : Json) :
    List (Int × Json) :=
  if m.any (fun kv => kv.1 == k) then
    m.map (fun kv => if kv.1 == k then (k, v) else kv)
  else m ++ [(k, v)]

/-- Python dict lookup `d.get(k)`. -/
def dictGet (m : List (Int × Json)) (k : Int) : Option Json :=
  (m.find? (fun kv => kv.1 == k)).map (fun kv => kv.2)

/-- The `by_index` dict comprehension (`llm_enrichment.py` lines 69-71)
over the elements of a parsed JSON array: objects whose
`feature_index` is an `int` are keyed by it (duplicates overwrite);
objects with a missing or non-`int` `feature_index` are skipped; a
non-object element makes `obj.get` raise `AttributeError` (`none`). -/
def buildFromList : List Json → List (Int × Json) → Option (List (Int × Json))
  | [], acc => some acc
  | x :: xs, acc =>
    match x with
    | Json.obj kvs =>
      match jGet kvs "feature_index" with
      | some v =>
        match pyIntOf v with
        | some k => buildFromList xs (dictInsertReplace acc k (Json.obj kvs))
        | none => buildFromList xs acc
      | none => buildFromList xs acc
    | _ => none

/-- The `by_index` comprehension applied to whatever
`strict_json_array` returned (`for obj in arr` on each JSON type):
arrays iterate their elements; an empty object or empty string iterates
zero items; a non-empty object iterates its string keys and a non-empty
string its characters, so `key.get` raises `AttributeError`; numbers,
booleans and `null` are not iterable (`TypeError`).  `none` models an
uncaught Python error. -/
def buildByIndex : Json → Option (List (Int × Json))
  | Json.arr xs => buildFromList xs []
  | Json.obj [] => some []
  | Json.obj (_ :: _) => none
  | Json.str s => if s = "" then some [] else none
  | _ => none

/-- Outcome of the batch-response handling block of
`enrich_ambiguous_with_llm` (lines 61-73). -/
inductive EnrichOutcome where
  | dumpAndRaise (raw : String) : EnrichOutcome
  | uncaughtError : EnrichOutcome
  | proceed (byIndex : List (Int × Json)) : EnrichOutcome

/-- Lines 61-73 of `enrich_ambiguous_with_llm` applied to the raw LLM
response text: a `strict_json_array` exception is caught, the raw text
is persisted to `llm_raw_response.txt` and a `RuntimeError` is raised
(`dumpAndRaise raw`); on a successful parse the `by_index`
comprehension runs outside the `try`, so its own errors persist nothing
(`uncaughtError`); otherwise enrichment proceeds with the map. -/
def enrichResponseStage (raw : String) : EnrichOutcome :=
  match strict_json_array raw with
  | none => EnrichOutcome.dumpAndRaise raw
  | some j =>
    match buildByIndex j with
    | none => EnrichOutcome.uncaughtError
    | some m => EnrichOutcome.proceed m

/-- `_coerce_float` on an optional JSON value (`.get("confidence", 0.0)`
default included; numeric-string parsing is not modelled — such values
coerce to the 0.0 default). -/
def coerceFloatJ : Option Json → ℚ
  | some (Json.num _ q) => q
  | some (Json.bool b) => if b then 1 else 0
  | _ => 0

/-- `_to_list` on an optional JSON value: lists pass through (string
elements), JSON-encoded array strings decode, everything else coerces
to `[]`. -/
def toListJ : Option Json → List String
  | some (Json.arr xs) =>
    xs.filterMap (fun x => match x with | Json.str s => some s | _ => none)
  | some (Json.str s) =>
    match jsonParse s.data with
    | some (Json.arr xs) =>
      xs.filterMap (fun x => match x with | Json.str s2 => some s2 | _ => none)
    | _ => []
  | _ => []

/-- The typed view of a parsed LLM response object that
`merge_prescan_llm` reads via `.get` and its coercions (the non-object
default case is unreachable from `buildByIndex`, which only stores
objects). -/
def llmObjOfJson : Json → LlmObj
  | Json.obj kvs =>
    { classification :=
        match jGet kvs "classification" with
        | some (Json.str s) => some s
        | _ => none
      confidence := coerceFloatJ (jGet kvs "confidence")
      domains := toListJ (jGet kvs "domains")
      primary_regions := toListJ (jGet kvs "primary_regions")
      related_regulations := toListJ (jGet kvs "related_regulations") }
  | _ =>
    { classification := none, confidence := 0, domains := [],
      primary_regions := [], related_regulations := [] }

/-- The enrichment columns written for one row by the merge loop of
`enrich_ambiguous_with_llm` (lines 87-110). -/
structure EnrichedFields where
  llm_classification : Option String
  llm_reasoning : Option String
  llm_confidence : Option ℚ
  llm_domains : Option (List String)
  llm_primary_regions : Option (List String)
  llm_related_regulations : Option (List String)
  final_domains : List String
  final_primary_regions : List String
  final_related_regulations : List String
  final_confidence : ℚ
  final_classification : String

/-- A `merge_prescan_llm` result viewed as the written columns. -/
def EnrichedFields.ofMerge (m : MergeResult) : EnrichedFields :=
  { llm_classification := m.llm_classification
    llm_reasoning := none
    llm_confidence := some m.llm_confidence
    llm_domains := some m.llm_domains
    llm_primary_regions := some m.llm_primary_regions
    llm_related_regulations := some m.llm_related_regulations
    final_domains := m.final_domains
    final_primary_regions := m.final_primary_regions
    final_related_regulations := m.final_related_regulations
    final_confidence := m.final_confidence
    final_classification := m.final_classification }

/-- One iteration of the merge loop (lines 87-110) for the row at index
`idx`: rows whose index is in `by_index` merge prescan with the LLM
object; rows absent from it are seeded from prescan alone. -/
def enrichRowResult (guard : ℚ) (byIndex : List (Int × Json)) (idx : Int)
    (row : PrescanRow) : EnrichedFields :=
  match dictGet byIndex idx with
  | some j =>
    EnrichedFields.ofMerge (merge_prescan_llm row (some (llmObjOfJson j)) guard)
  | none =>
    { llm_classification := none
      llm_reasoning := none
      llm_confidence := none
      llm_domains := none
      llm_primary_regions := none
      llm_related_regulations := none
      final_domains := row.prescan_domains
      final_primary_regions := row.prescan_primary_regions
      final_related_regulations := row.prescan_law_hits
      final_confidence := round2 (min (3/4 + row.prescan_confidence_boost) (19/20))
      final_classification :=
        if row.prescan_required_hint then "REQUIRED" else "NOT REQUIRED" }

/-! ## Theorems -/

theorem chLe_total (a b : List Char) : chLe a b = true ∨ chLe b a = true := by
  induction a generalizing b with
  | nil => left; rfl
  | cons x xs ih =>
    cases b with
    | nil => right; rfl
    | cons y ys =>
      by_cases hxy : x.toNat < y.toNat
      · left; simp [chLe, hxy]
      · by_cases hyx : y.toNat < x.toNat
        · right; simp [chLe, hyx]
        · have := ih ys
          rcases this with h | h
          · left; simpa [chLe, hxy, hyx] using h
          · right; simpa [chLe, hxy, hyx] using h

theorem chLe_trans {a b c : List Char} (hab : chLe a b = true)
    (hbc : chLe b c = true) : chLe a c = true := by
  induction a generalizing b c with
  | nil => rfl
  | cons x xs ih =>
    cases b with
    | nil => simp [chLe] at hab
    | cons y ys =>
      cases c with
      | nil => simp [chLe] at hbc
      | cons z zs =>
        by_cases hxy : x.toNat < y.toNat
        · by_cases hyz : y.toNat < z.toNat
          · have : x.toNat < z.toNat := Nat.lt_trans hxy hyz
            simp [chLe, this]
          · by_cases hzy : z.toNat < y.toNat
            · simp [chLe, hyz, hzy] at hbc
            · have hyz' : y.toNat = z.toNat := Nat.le_antisymm
                (Nat.le_of_not_lt hzy) (Nat.le_of_not_lt hyz)
              have : x.toNat < z.toNat := hyz' ▸ hxy
              simp [chLe, this]
        · by_cases hyx : y.toNat < x.toNat
          · simp [chLe, hxy, hyx] at hab
          · have hxy' : x.toNat = y.toNat := Nat.le_antisymm
              (Nat.le_of_not_lt hyx) (Nat.le_of_not_lt hxy)
            by_cases hyz : y.toNat < z.toNat
            · have : x.toNat < z.toNat := hxy' ▸ hyz
              simp [chLe, this]
            · by_cases hzy : z.toNat < y.toNat
              · simp [chLe, hyz, hzy] at hbc
              · have hxz : ¬ x.toNat < z.toNat := by
                  intro h; exact hyz (hxy' ▸ h)
                have hzx : ¬ z.toNat < x.toNat := by
                  intro h; exact hzy (hxy' ▸ h)
                have hab' : chLe xs ys = true := by
                  simpa [chLe, hxy, hyx] using hab
                have hbc' : chLe ys zs = true := by
                  simpa [chLe, hyz, hzy] using hbc
                simpa [chLe, hxz, hzx] using ih hab' hbc'

theorem strLe_total (a b : String) : strLe a b = true ∨ strLe b a = true :=
  chLe_total a.data b.data

theorem strLe_trans {a b c : String} (hab : strLe a b = true)
    (hbc : strLe b c = true) : strLe a c = true :=
  chLe_trans hab hbc

theorem perm_insertLe (x : String) (l : List String) :
    List.Perm (insertLe x l) (x :: l) := by
  induction l with
  | nil => rfl
  | cons y ys ih =>
    by_cases h : strLe x y = true
    · simp [insertLe, h]
    · simp only [insertLe, h]
      have h1 : List.Perm (y :: insertLe x ys) (y :: x :: ys) := List.Perm.cons y ih
      exact h1.trans (List.Perm.swap x y ys)

theorem perm_sortStrs (l : List String) : List.Perm (sortStrs l) l := by
  induction l with
  | nil => rfl
  | cons x xs ih =>
    exact ((perm_insertLe x (sortStrs xs)).trans (List.Perm.cons x ih))

theorem mem_sortStrs (x : String) (l : List String) :
    x ∈ sortStrs l ↔ x ∈ l := (perm_sortStrs l).mem_iff

theorem sorted_insertLe (x : String) (l : List String)
    (h : List.Pairwise (fun a b => strLe a b = true) l) :
    List.Pairwise (fun a b => strLe a b = true) (insertLe x l) := by
  induction l with
  | nil => simp [insertLe]
  | cons y ys ih =>
    by_cases hxy : strLe x y = true
    · simp only [insertLe, hxy, if_pos]
      constructor
      · intro z hz
        rcases List.mem_cons.mp hz with rfl | hz
        · exact hxy
        · exact strLe_trans hxy ((List.pairwise_cons.mp h).1 z hz)
      · exact h
    · simp only [insertLe, hxy, if_neg, Bool.not_eq_true]
      have hyx : strLe y x = true := by
        rcases strLe_total x y with h' | h'
        · exact absurd h' hxy
        · exact h'
      rcases List.pairwise_cons.mp h with ⟨hy, hys⟩
      constructor
      · intro z hz
        have := (perm_insertLe x ys).mem_iff.mp hz
        rcases List.mem_cons.mp this with rfl | hz'
        · exact hyx
        · exact hy z hz'
      · exact ih hys

theorem sorted_sortStrs (l : List String) :
    List.Pairwise (fun a b => strLe a b = true) (sortStrs l) := by
  induction l with
  | nil => exact List.Pairwise.nil
  | cons x xs ih => exact sorted_insertLe x (sortStrs xs) ih

theorem mem_mergeUnique (a b : List String) (x : String) :
    x ∈ mergeUnique a b ↔ x ∈ a ∨ x ∈ b := by
  unfold mergeUnique
  rw [mem_sortStrs, List.mem_dedup, List.mem_append]

theorem nodup_mergeUnique (a b : List String) :
    List.Nodup (mergeUnique a b) :=
  ((perm_sortStrs _).nodup_iff).mpr (List.nodup_dedup _)

theorem sorted_mergeUnique (a b : List String) :
    List.Pairwise (fun x y => strLe x y = true) (mergeUnique a b) :=
  sorted_sortStrs _

theorem settings_default_guard : (({} : Settings)).confidence_downgrade_guard = 80/100 := rfl

theorem foldl_max_mem (s : ℚ) (l : List ℚ) : l.foldl max s ∈ s :: l := by
  induction l generalizing s with
  | nil => simp [List.foldl]
  | cons y ys ih =>
    have h := ih (max s y)
    simp only [List.foldl_cons]
    rcases List.mem_cons.mp h with h' | h'
    · rw [h']
      rcases max_choice s y with hm | hm
      · rw [hm]; exact List.mem_cons_self _ _
      · rw [hm]; exact List.mem_cons_of_mem _ (List.mem_cons_self _ _)
    · exact List.mem_cons_of_mem _ (List.mem_cons_of_mem _ h')

theorem le_foldl_max (s : ℚ) (l : List ℚ) : ∀ x ∈ s :: l, x ≤ l.foldl max s := by
  induction l generalizing s with
  | nil => intro x hx; simp at hx; simp [List.foldl, hx]
  | cons y ys ih =>
    intro x hx
    rcases List.mem_cons.mp hx with rfl | hx'
    · exact le_trans (le_max_left x y) (ih (max x y) _ (List.mem_cons_self _ _))
    · rcases List.mem_cons.mp hx' with rfl | hx''
      · exact le_trans (le_max_right s x) (ih (max s x) _ (List.mem_cons_self _ _))
      · exact ih (max s y) x (List.mem_cons_of_mem _ hx'')

/-- Any-status helper: pandas `(rows["status"] == s).any()`. -/
theorem any_status_iff (rows : List AgentRow) (s : String) :
    rows.any (fun r => r.status == s) = true ↔ ∃ r ∈ rows, r.status = s := by
  simp [List.any_eq_true]

/-- C1: downgrade guard.  If the row's `prescan_required_hint` is true,
the LLM classification is `"NOT REQUIRED"`, and the LLM confidence is
strictly below the downgrade-guard threshold, `merge_prescan_llm` returns
`final_classification = "REQUIRES REVIEW (rules hint REQUIRED)"`, and in
particular never `"NOT REQUIRED"`. -/
theorem merge_downgrade_guard (row : PrescanRow) (obj : LlmObj) (guard : ℚ)
    (hreq : row.prescan_required_hint = true)
    (hcls : obj.classification = some "NOT REQUIRED")
    (hconf : obj.confidence < guard) :
    (merge_prescan_llm row (some obj) guard).final_classification
      = "REQUIRES REVIEW (rules hint REQUIRED)" ∧
    (merge_prescan_llm row (some obj) guard).final_classification
      ≠ "NOT REQUIRED" := by
  constructor
  · simp [merge_prescan_llm, hreq, hcls, hconf]
  · simp [merge_prescan_llm, hreq, hcls, hconf]

/-- Witness for C1: a concrete guarded row at the default 0.80 threshold. -/
theorem merge_downgrade_guard_witness :
    (merge_prescan_llm ⟨true, ["Child Safety"], [], [], 1/5⟩
        (some ⟨some "NOT REQUIRED", 1/2, [], [], []⟩)
        (({} : Settings)).confidence_downgrade_guard).final_classification
      = "REQUIRES REVIEW (rules hint REQUIRED)" :=
  (merge_downgrade_guard ⟨true, ["Child Safety"], [], [], 1/5⟩
    ⟨some "NOT REQUIRED", 1/2, [], [], []⟩ (80/100) rfl rfl (by norm_num)).1

/-- C2: finalizer precedence.  Any ISSUE verdict forces `"REQUIRED"`;
otherwise any REVIEW forces `"NEEDS HUMAN REVIEW"`; otherwise
`pick_final_class` returns `"NOT REQUIRED"`. -/
theorem pick_final_class_precedence (rows : List AgentRow) :
    ((∃ r ∈ rows, r.status = "ISSUE") →
      pick_final_class rows = "REQUIRED") ∧
    ((¬ ∃ r ∈ rows, r.status = "ISSUE") → (∃ r ∈ rows, r.status = "REVIEW") →
      pick_final_class rows = "NEEDS HUMAN REVIEW") ∧
    ((¬ ∃ r ∈ rows, r.status = "ISSUE") → (¬ ∃ r ∈ rows, r.status = "REVIEW") →
      pick_final_class rows = "NOT REQUIRED") := by
  refine ⟨?_, ?_, ?_⟩
  · intro h
    have hI : rows.any (fun r => r.status == "ISSUE") = true :=
      (any_status_iff rows "ISSUE").mpr h
    simp [pick_final_class, hI]
  · intro hni h
    have hI : ¬ rows.any (fun r => r.status == "ISSUE") = true := by
      intro hc; exact hni ((any_status_iff rows "ISSUE").mp hc)
    have hR : rows.any (fun r => r.status == "REVIEW") = true :=
      (any_status_iff rows "REVIEW").mpr h
    simp [pick_final_class, hI, hR]
  · intro hni hnr
    have hI : ¬ rows.any (fun r => r.status == "ISSUE") = true := by
      intro hc; exact hni ((any_status_iff rows "ISSUE").mp hc)
    have hR : ¬ rows.any (fun r => r.status == "REVIEW") = true := by
      intro hc; exact hnr ((any_status_iff rows "REVIEW").mp hc)
    simp [pick_final_class, hI, hR]

/-- Witness for C2: one ISSUE verdict among OK and REVIEW verdicts
still yields `"REQUIRED"`. -/
theorem pick_final_class_precedence_witness :
    pick_final_class
      [⟨"PrivacyAgent", "OK", some (1/10), ""⟩,
       ⟨"ChildSafetyAgent", "ISSUE", some (9/10), ""⟩,
       ⟨"ModerationAgent", "REVIEW", some (1/2), ""⟩] = "REQUIRED" :=
  (pick_final_class_precedence _).1
    ⟨⟨"ChildSafetyAgent", "ISSUE", some (9/10), ""⟩,
     List.mem_cons_of_mem _ (List.mem_cons_self _ _), rfl⟩

/-- C3 counterexample: on an empty verdict set the code returns `0.5`
(line 80-81 of `finalize_results.py`), not the fixed `0.9` the claim
asserts for `"NOT REQUIRED"` — even though `pick_final_class` of the
empty set is `"NOT REQUIRED"`. -/
theorem compute_confidence_empty_counterexample :
    pick_final_class [] = "NOT REQUIRED" ∧
    compute_confidence [] "NOT REQUIRED" = 1/2 ∧
    (1/2 : ℚ) ≠ 9/10 := by
  refine ⟨rfl, rfl, by norm_num⟩

/-- C3 (amended): `compute_confidence` returns `0.5` on an empty verdict
set regardless of the classification; on a non-empty set it returns, for
`"REQUIRED"`, the maximum recorded ISSUE score (`0.75` if none); for
`"NEEDS HUMAN REVIEW"`, the mean of recorded REVIEW scores (`0.6` if
none); and for `"NOT REQUIRED"`, the fixed `0.9`. -/
theorem compute_confidence_spec (rows : List AgentRow) :
    (rows = [] → ∀ c, compute_confidence rows c = 1/2) ∧
    (rows ≠ [] →
      (issueScores rows = [] → compute_confidence rows "REQUIRED" = 3/4) ∧
      (issueScores rows ≠ [] →
        compute_confidence rows "REQUIRED" ∈ issueScores rows ∧
        ∀ x ∈ issueScores rows, x ≤ compute_confidence rows "REQUIRED") ∧
      (reviewScores rows = [] →
        compute_confidence rows "NEEDS HUMAN REVIEW" = 3/5) ∧
      (reviewScores rows ≠ [] →
        compute_confidence rows "NEEDS HUMAN REVIEW"
          = (reviewScores rows).sum / (reviewScores rows).length) ∧
      compute_confidence rows "NOT REQUIRED" = 9/10) := by
  constructor
  · intro h c; subst h; rfl
  · intro hne
    have hempty : rows.isEmpty = false := by
      cases rows with
      | nil => exact absurd rfl hne
      | cons a l => rfl
    refine ⟨?_, ?_, ?_, ?_, ?_⟩
    · intro hi
      simp [compute_confidence, hempty, hi]
    · intro hi
      rcases hl : issueScores rows with _ | ⟨s, rest⟩
      · exact absurd hl hi
      · have hcc : compute_confidence rows "REQUIRED" = rest.foldl max s := by
          simp [compute_confidence, hempty, hl]
        constructor
        · rw [hcc]
          exact foldl_max_mem s rest
        · intro x hx
          rw [hcc]
          exact le_foldl_max s rest x hx
    · intro hr
      simp [compute_confidence, hempty, hr]
    · intro hr
      have hr' : (reviewScores rows).isEmpty = false := by
        cases h : reviewScores rows with
        | nil => exact absurd h hr
        | cons a l => rfl
      simp [compute_confidence, hempty, hr']
    · simp [compute_confidence, hempty]

/-- Witness for C3 (amended): a concrete one-ISSUE verdict set. -/
theorem compute_confidence_spec_witness :
    compute_confidence [⟨"ChildSafetyAgent", "ISSUE", some (4/5), ""⟩] "NOT REQUIRED"
      = 9/10 :=
  ((compute_confidence_spec [⟨"ChildSafetyAgent", "ISSUE", some (4/5), ""⟩]).2
    (List.cons_ne_nil _ _)).2.2.2.2

/-- C4: union invariant of `merge_prescan_llm` — every prescan domain and
every LLM domain appears in `final_domains` (and likewise for regions
and regulations), and each final list is a deduplicated,
lexicographically sorted set union. -/
theorem merge_union_invariant (row : PrescanRow) (obj : Option LlmObj) (guard : ℚ) :
    (∀ x ∈ row.prescan_domains,
      x ∈ (merge_prescan_llm row obj guard).final_domains) ∧
    (∀ x ∈ (merge_prescan_llm row obj guard).llm_domains,
      x ∈ (merge_prescan_llm row obj guard).final_domains) ∧
    (∀ x ∈ row.prescan_primary_regions,
      x ∈ (merge_prescan_llm row obj guard).final_primary_regions) ∧
    (∀ x ∈ (merge_prescan_llm row obj guard).llm_primary_regions,
      x ∈ (merge_prescan_llm row obj guard).final_primary_regions) ∧
    (∀ x ∈ row.prescan_law_hits,
      x ∈ (merge_prescan_llm row obj guard).final_related_regulations) ∧
    (∀ x ∈ (merge_prescan_llm row obj guard).llm_related_regulations,
      x ∈ (merge_prescan_llm row obj guard).final_related_regulations) ∧
    (merge_prescan_llm row obj guard).final_domains.Nodup ∧
    List.Pairwise (fun x y => strLe x y = true)
      (merge_prescan_llm row obj guard).final_domains := by
  refine ⟨?_, ?_, ?_, ?_, ?_, ?_, ?_, ?_⟩
  · intro x hx
    simp only [merge_prescan_llm]
    exact (mem_mergeUnique _ _ x).mpr (Or.inl hx)
  · intro x hx
    simp only [merge_prescan_llm] at hx ⊢
    exact (mem_mergeUnique _ _ x).mpr (Or.inr hx)
  · intro x hx
    simp only [merge_prescan_llm]
    exact (mem_mergeUnique _ _ x).mpr (Or.inl hx)
  · intro x hx
    simp only [merge_prescan_llm] at hx ⊢
    exact (mem_mergeUnique _ _ x).mpr (Or.inr hx)
  · intro x hx
    simp only [merge_prescan_llm]
    exact (mem_mergeUnique _ _ x).mpr (Or.inl hx)
  · intro x hx
    simp only [merge_prescan_llm] at hx ⊢
    exact (mem_mergeUnique _ _ x).mpr (Or.inr hx)
  · simp only [merge_prescan_llm]
    exact nodup_mergeUnique _ _
  · simp only [merge_prescan_llm]
    exact sorted_mergeUnique _ _

/-- Witness for C4: a prescan domain and an LLM domain both survive a
concrete merge. -/
theorem merge_union_invariant_witness :
    "Child Safety" ∈ (merge_prescan_llm ⟨false, ["Child Safety"], [], [], 0⟩
        (some ⟨some "NOT REQUIRED", 1/2, ["Privacy & Data Protection"], [], []⟩)
        (80/100)).final_domains ∧
    "Privacy & Data Protection" ∈ (merge_prescan_llm ⟨false, ["Child Safety"], [], [], 0⟩
        (some ⟨some "NOT REQUIRED", 1/2, ["Privacy & Data Protection"], [], []⟩)
        (80/100)).final_domains :=
  ⟨(merge_union_invariant ⟨false, ["Child Safety"], [], [], 0⟩
      (some ⟨some "NOT REQUIRED", 1/2, ["Privacy & Data Protection"], [], []⟩)
      (80/100)).1 "Child Safety" (List.mem_cons_self _ _),
   (merge_union_invariant ⟨false, ["Child Safety"], [], [], 0⟩
      (some ⟨some "NOT REQUIRED", 1/2, ["Privacy & Data Protection"], [], []⟩)
      (80/100)).2.1 "Privacy & Data Protection" (List.mem_cons_self _ _)⟩

/-- Semantic restatement of "some law pattern matched". -/
theorem collect_law_hits_ne_nil_iff (cfg : RulesConfig) (text : String) :
    collect_law_hits cfg text ≠ [] ↔
      ∃ lp ∈ cfg.lawPatterns, ∃ p ∈ lp.2, 0 < p text := by
  unfold collect_law_hits
  rw [Ne, List.filterMap_eq_nil_iff]
  push_neg
  constructor
  · rintro ⟨lp, hmem, hne⟩
    refine ⟨lp, hmem, ?_⟩
    by_contra hno
    push_neg at hno
    apply hne
    have hz : ((lp.2.map (fun p => p text)).sum = 0) := by
      rw [List.sum_eq_zero_iff]
      intro n hn
      rcases List.mem_map.mp hn with ⟨p, hp, rfl⟩
      exact Nat.le_antisymm (hno p hp) (Nat.zero_le _)
    simp [hz]
  · rintro ⟨lp, hmem, p, hp, hpos⟩
    refine ⟨lp, hmem, ?_⟩
    intro hcontra
    by_cases hz : (lp.2.map (fun p => p text)).sum = 0
    · rw [List.sum_eq_zero_iff] at hz
      have := hz (p text) (List.mem_map.mpr ⟨p, hp, rfl⟩)
      omega
    · simp [hz] at hcontra

/-- `l.isEmpty = false` iff `l` is not nil. -/
theorem isEmpty_false_iff {α : Type} (l : List α) :
    l.isEmpty = false ↔ l ≠ [] := by
  cases l <;> simp

/-- C5: `prescan` sets `required_hint` exactly when at least one law
pattern matched, or a compliance-language phrase matched, or both the
minor-term and the age-control-term matched. -/
theorem prescan_required_hint_iff (cfg : RulesConfig) (name desc : String) :
    (prescan cfg name desc).required_hint = true ↔
      ((∃ lp ∈ cfg.lawPatterns, ∃ p ∈ lp.2, 0 < p (prescanText name desc)) ∨
       (∃ p ∈ cfg.complianceLanguage, 0 < p (prescanText name desc)) ∨
       (cfg.minorPat (prescanText name desc) = true ∧
        cfg.ageCtrlPat (prescanText name desc) = true)) := by
  have hrh : (prescan cfg name desc).required_hint
      = ((!(collect_law_hits cfg (prescanText name desc)).isEmpty)
         || has_compliance_language cfg (prescanText name desc)
         || (cfg.minorPat (prescanText name desc)
             && cfg.ageCtrlPat (prescanText name desc))) := rfl
  rw [hrh]
  simp only [Bool.or_eq_true, Bool.and_eq_true, Bool.not_eq_true',
    has_compliance_language, List.any_eq_true, decide_eq_true_eq]
  rw [isEmpty_false_iff, collect_law_hits_ne_nil_iff]
  exact or_assoc

/-- Bool form of "some law pattern matched" agrees with
`collect_law_hits` being non-empty. -/
theorem anyLaw_eq_not_isEmpty (cfg : RulesConfig) (text : String) :
    cfg.lawPatterns.any (fun lp => lp.2.any (fun p => 0 < p text))
      = !(collect_law_hits cfg text).isEmpty := by
  rcases h : (collect_law_hits cfg text).isEmpty with _ | _
  · have hne : collect_law_hits cfg text ≠ [] := (isEmpty_false_iff _).mp h
    have := (collect_law_hits_ne_nil_iff cfg text).mp hne
    simp only [h, Bool.not_false]
    rw [List.any_eq_true]
    rcases this with ⟨lp, hlp, p, hp, hpos⟩
    exact ⟨lp, hlp, by rw [List.any_eq_true]; exact ⟨p, hp, by simpa using hpos⟩⟩
  · have hnil : collect_law_hits cfg text = [] := by
      cases h' : collect_law_hits cfg text with
      | nil => rfl
      | cons a l => rw [h'] at h; simp [List.isEmpty] at h
    simp only [h, Bool.not_true]
    rw [← Bool.not_eq_true, List.any_eq_true]
    rintro ⟨lp, hlp, hany⟩
    rw [List.any_eq_true] at hany
    rcases hany with ⟨p, hp, hpos⟩
    have : collect_law_hits cfg text ≠ [] :=
      (collect_law_hits_ne_nil_iff cfg text).mpr ⟨lp, hlp, p, hp, by simpa using hpos⟩
    exact this hnil

/-- C6: the prescan confidence boost is the sum of the three independent
bonuses (0.20 for a law hit, 0.05 for compliance phrasing, 0.10 for the
minors + age-control heuristic) capped at 0.30, and always lies in
`[0, 0.30]`. -/
theorem prescan_confidence_boost_spec (cfg : RulesConfig) (name desc : String) :
    (prescan cfg name desc).confidence_boost
      = min ((if cfg.lawPatterns.any
                  (fun lp => lp.2.any (fun p => 0 < p (prescanText name desc)))
              then (1/5 : ℚ) else 0)
           + (if has_compliance_language cfg (prescanText name desc)
              then (1/20 : ℚ) else 0)
           + (if cfg.minorPat (prescanText name desc)
                 && cfg.ageCtrlPat (prescanText name desc)
              then (1/10 : ℚ) else 0)) (3/10) ∧
    0 ≤ (prescan cfg name desc).confidence_boost ∧
    (prescan cfg name desc).confidence_boost ≤ 3/10 := by
  have hb : (prescan cfg name desc).confidence_boost
      = min ((if !(collect_law_hits cfg (prescanText name desc)).isEmpty
              then (1/5 : ℚ) else 0)
           + (if has_compliance_language cfg (prescanText name desc)
              then (1/20 : ℚ) else 0)
           + (if cfg.minorPat (prescanText name desc)
                 && cfg.ageCtrlPat (prescanText name desc)
              then (1/10 : ℚ) else 0)) (3/10) := rfl
  rw [hb, anyLaw_eq_not_isEmpty]
  refine ⟨rfl, ?_, ?_⟩
  · apply le_min
    · split_ifs <;> norm_num
    · norm_num
  · exact min_le_right _ _

/-- C7 counterexample: a row whose manual agents are all skipped routes
to `["HumanReviewAgent"]` (`router.py` line 120, `or [human_review_agent]`),
not to the empty "manual minus skip" list the claim prescribes. -/
theorem route_row_manual_all_skipped_counterexample :
    (route_row {}
        ⟨none, 0, ["Child Safety"], [], false,
         ["PrivacyAgent"], ["PrivacyAgent"], [], 0⟩).agents
      = ["HumanReviewAgent"] ∧
    ((["PrivacyAgent"].filter
        (fun a => !(["PrivacyAgent"].contains a))).take 3 : List String) = [] ∧
    (["HumanReviewAgent"] : List String) ≠ [] := by
  refine ⟨rfl, rfl, by simp⟩

/-- C7 (amended): with a non-empty `manual_agents` list (and the default
`only_llm = False`), `route_row` returns the manual agents minus the
skip agents truncated to `max_agents_per_item` — falling back to
`[human_review_agent]` when that list is empty — and the result is
independent of the row's computed domains, regions, classification and
confidence. -/
theorem route_row_manual_override (cfg : RouterConfig) (row : RouteRow)
    (honly : cfg.only_llm = false)
    (hmanual : row.manual_agents ≠ []) :
    ((route_row cfg row).agents =
      (if (row.manual_agents.filter
            (fun x => !row.skip_agents.contains x)).take cfg.max_agents_per_item = []
       then [cfg.human_review_agent]
       else (row.manual_agents.filter
              (fun x => !row.skip_agents.contains x)).take cfg.max_agents_per_item)) ∧
    (∀ (ds rs llmds : List String) (cl : Option String) (conf boost : ℚ) (hint : Bool),
      (route_row cfg { row with final_domains := ds, final_primary_regions := rs,
                                llm_domains := llmds, final_classification := cl,
                                final_confidence := conf,
                                prescan_confidence_boost := boost,
                                prescan_required_hint := hint }).agents
        = (route_row cfg row).agents) := by
  constructor
  · simp [route_row, honly, hmanual]
  · intro ds rs llmds cl conf boost hint
    simp [route_row, honly, hmanual]

/-- Witness for C7 (amended): scenario 4 of the spec — manual
`["PrivacyAgent"]`, skip `["ChildSafetyAgent"]` routes to exactly
`["PrivacyAgent"]` despite a Child Safety domain. -/
theorem route_row_manual_override_witness :
    (route_row {}
        ⟨none, 0, ["Child Safety"], [], false,
         ["PrivacyAgent"], ["ChildSafetyAgent"], [], 0⟩).agents
      = ["PrivacyAgent"] := by
  have h := (route_row_manual_override {}
    ⟨none, 0, ["Child Safety"], [], false,
     ["PrivacyAgent"], ["ChildSafetyAgent"], [], 0⟩ rfl (by simp)).1
  simpa using h

/-- C9: the rate limiter computes `wait = (last + min_interval) - now`
and blocks exactly that long when positive (plus a jitter sleep bounded
by 250 ms), so the critical section exits no earlier than
`last + min_interval` and no earlier than `now`, and the timestamp is
updated to the exit time; with `min_interval = 1.0`, zero jitter and a
first call completed at time `0`, a second call entering at `0.2`
exits exactly at `1.0`. -/
theorem rateLimit_min_spacing (st : RateLimitedLLM) (now : ℚ)
    (hj : 0 ≤ st.jitter) :
    ((st.generateStep now).1
        = max now (st.last + st.min_interval)
          + (if st.jitter > 0 then min st.jitter (1/4) else 0)) ∧
    st.last + st.min_interval ≤ (st.generateStep now).1 ∧
    now ≤ (st.generateStep now).1 ∧
    ((st.generateStep now).1
        - max now (st.last + st.min_interval) ≤ 1/4) ∧
    (st.generateStep now).2.last = (st.generateStep now).1 := by
  have hjit : 0 ≤ (if st.jitter > 0 then min st.jitter (1/4) else 0) := by
    split_ifs with h
    · exact le_min (le_of_lt h) (by norm_num)
    · exact le_refl 0
  have hjit' : (if st.jitter > 0 then min st.jitter (1/4) else 0) ≤ 1/4 := by
    split_ifs with h
    · exact min_le_right _ _
    · norm_num
  have hmax : (st.generateStep now).1
      = max now (st.last + st.min_interval)
        + (if st.jitter > 0 then min st.jitter (1/4) else 0) := by
    unfold RateLimitedLLM.generateStep
    by_cases hw : (st.last + st.min_interval) - now > 0
    · have : max now (st.last + st.min_interval) = st.last + st.min_interval :=
        max_eq_right (by linarith)
      simp only [hw, if_pos]
      rw [this]
      split_ifs <;> ring
    · have : max now (st.last + st.min_interval) = now :=
        max_eq_left (by linarith [not_lt.mp hw])
      simp only [hw, if_neg, not_false_iff]
      rw [this]
      split_ifs <;> ring
  refine ⟨hmax, ?_, ?_, ?_, ?_⟩
  · rw [hmax]
    have := le_max_right now (st.last + st.min_interval)
    linarith
  · rw [hmax]
    have := le_max_left now (st.last + st.min_interval)
    linarith
  · rw [hmax]; linarith
  · rfl

/-- Witness for C9: spec scenario 3 — `min_interval_sec = 1.0`, no
jitter, first call completed at clock 0, second call entering at 0.2
does not exit before clock 1.0. -/
theorem rateLimit_min_spacing_witness :
    ((RateLimitedLLM.mk 1 0 0).generateStep (1/5)).1 = 1 ∧
    (1 : ℚ) ≤ ((RateLimitedLLM.mk 1 0 0).generateStep (1/5)).1 := by
  have h := rateLimit_min_spacing (RateLimitedLLM.mk 1 0 0) (1/5) (le_refl 0)
  constructor
  · rw [h.1]
    norm_num [max_eq_right]
  · have h2 := h.2.1
    simpa using h2

/-- C8 counterexample: the raw response `"\x7b\x7d"` (an empty JSON
object) fails array-JSON parsing — the parse result is not an array —
yet nothing is persisted and no error is raised: `strict_json_array`
returns the object unchecked and the `by_index` comprehension quietly
yields an empty map, so enrichment proceeds, seeding every ambiguous
row from prescan alone. -/
theorem enrich_nonarray_counterexample :
    (strict_json_array "\x7b\x7d").map Json.isArr = some false ∧
    enrichResponseStage "\x7b\x7d" = EnrichOutcome.proceed [] :=
  ⟨rfl, rfl⟩

/-- C8 (amended): when the response text fails JSON parsing after
fence-stripping (`json.loads` raises), the raw text is persisted to
disk and an error is raised; the stage never proceeds with a partial
map.  (A payload that parses as non-array JSON is not detected by this
guard.) -/
theorem enrich_parse_failure_dump (raw : String)
    (h : strict_json_array raw = none) :
    enrichResponseStage raw = EnrichOutcome.dumpAndRaise raw ∧
    ∀ m, enrichResponseStage raw ≠ EnrichOutcome.proceed m := by
  unfold enrichResponseStage
  rw [h]
  exact ⟨rfl, fun m hm => EnrichOutcome.noConfusion hm⟩

/-- Witness for C8 (amended): the unparseable response of
`test_json_parser.py` is dumped and raised on. -/
theorem enrich_parse_failure_dump_witness :
    enrichResponseStage "nonsense text without json"
      = EnrichOutcome.dumpAndRaise "nonsense text without json" :=
  (enrich_parse_failure_dump "nonsense text without json" rfl).1

/-- C10: a row whose index is absent from the parsed response map is
seeded from prescan alone, with no error: all `llm_*` fields are
`None`, the final lists are the prescan lists,
`final_confidence = round(min(0.75 + boost, 0.95), 2)` and
`final_classification` is `"REQUIRED"` iff `prescan_required_hint`. -/
theorem enrich_missing_index_fallback (guard : ℚ) (byIndex : List (Int × Json))
    (idx : Int) (row : PrescanRow)
    (h : dictGet byIndex idx = none) :
    enrichRowResult guard byIndex idx row =
      { llm_classification := none
        llm_reasoning := none
        llm_confidence := none
        llm_domains := none
        llm_primary_regions := none
        llm_related_regulations := none
        final_domains := row.prescan_domains
        final_primary_regions := row.prescan_primary_regions
        final_related_regulations := row.prescan_law_hits
        final_confidence := round2 (min (3/4 + row.prescan_confidence_boost) (19/20))
        final_classification :=
          if row.prescan_required_hint then "REQUIRED" else "NOT REQUIRED" } := by
  unfold enrichRowResult
  rw [h]

/-- Witness for C10: an ambiguous row sent to the LLM whose
`feature_index` came back as a string is excluded from the map
(`by_index = {}` here), and the row is seeded from prescan:
classification `REQUIRED` (hint set), confidence
`min(0.75 + 0.20, 0.95) = 0.95`. -/
theorem enrich_missing_index_fallback_witness :
    buildByIndex (Json.arr [Json.obj [("feature_index", Json.str "7")]])
      = some [] ∧
    (enrichRowResult (80/100) [] 7
        ⟨true, ["Child Safety"], [], [], 1/5⟩).final_classification
      = "REQUIRED" ∧
    (enrichRowResult (80/100) [] 7
        ⟨true, ["Child Safety"], [], [], 1/5⟩).final_confidence
      = 19/20 := by
  have h := enrich_missing_index_fallback (80/100) [] 7
    ⟨true, ["Child Safety"], [], [], 1/5⟩ rfl
  refine ⟨rfl, ?_, ?_⟩
  · rw [h]; rfl
  · rw [h]
    show round2 (min (3/4 + 1/5 : ℚ) (19/20)) = 19/20
    rw [show (min (3/4 + 1/5 : ℚ) (19/20)) = 19/20 by norm_num]
    unfold round2
    rw [show ((19/20 : ℚ) * 100 + 1/2) = 191/2 by norm_num]
    rw [show Int.floor (191/2 : ℚ) = 95 by
      rw [Int.floor_eq_iff] <;> norm_num]
    norm_num
